import Mathlib

/-!
Verification of the plone-mcp block-document transformation subsystem.

Shallow embedding of the core of `src/index.ts` and `src/markdown-parser.ts`:
the Markdown→Slate transform, the per-type block normalizer (`processBlock`),
the staging operation (`handleCreateBlocksLayout`), the block-processing /
title-invariant helper (`_handleBlockProcessing`) and the single-block update
(`handleUpdateBlock`).

JavaScript objects are modelled as insertion-ordered association lists
`List (String × JValue)`; JavaScript values as the inductive `JValue`
(numbers as integers — the code under verification only tests them for
truthiness, never does float arithmetic).
-/

/-- A JSON-ish JavaScript value as handled by the server (numbers modelled as
integers; the code under verification never does float arithmetic on them). -/
inductive JValue where
  | null : JValue
  | bool (b : Bool) : JValue
  | num (n : Int) : JValue
  | str (s : String) : JValue
  | arr (xs : List JValue) : JValue
  | obj (fields : List (String × JValue)) : JValue

/-- JavaScript truthiness of a value (`undefined` is represented by the
absence of the value, i.e. `Option.none` at use sites). -/
def truthy : JValue → Bool
  | .null => false
  | .bool b => b
  | .num n => n != 0
  | .str s => s ≠ ""
  | .arr _ => true
  | .obj _ => true

/-- Truthiness of a possibly-absent value: `undefined` is falsy. -/
def truthyOpt : Option JValue → Bool
  | none => false
  | some v => truthy v

/-- Operator `x || d` on a possibly-absent left operand, as used for
`blockData.text || ""` and `blockData.theme || "default"`. -/
def jsOr (v : Option JValue) (dflt : JValue) : JValue :=
  match v with
  | some x => if truthy x then x else dflt
  | none => dflt

/-- Property read `o[k]` on an object's field list (first match; JS objects
have unique keys, so first match is the only match for real objects). -/
def objGet (o : List (String × JValue)) (k : String) : Option JValue :=
  match o with
  | [] => none
  | (k', v) :: rest => if k' = k then some v else objGet rest k

/-- Property write `o[k] = v`: replaces the value at the first occurrence of
the key, keeping its position; appends the binding when the key is absent
(JS object insertion-order semantics). -/
def objSet (o : List (String × JValue)) (k : String) (v : JValue) :
    List (String × JValue) :=
  match o with
  | [] => [(k, v)]
  | (k', v') :: rest =>
      if k' = k then (k', v) :: rest else (k', v') :: objSet rest k v

/-- Spread merge `{...a, ...b}`: `a`'s keys in order with `b`'s value where
`b` also has the key, followed by `b`'s keys not occurring in `a`. -/
def objSpread2 (a b : List (String × JValue)) : List (String × JValue) :=
  a.map (fun kv => match objGet b kv.1 with
          | some v => (kv.1, v)
          | none => kv) ++
    b.filter (fun kv => !(a.any (fun kv' => kv'.1 = kv.1)))

theorem objGet_objSet_self (o : List (String × JValue)) (k : String)
    (v : JValue) : objGet (objSet o k v) k = some v := by
  induction o with
  | nil => simp [objSet, objGet]
  | cons hd tl ih =>
      obtain ⟨k', v'⟩ := hd
      by_cases h : k' = k <;> simp [objSet, objGet, h, ih]

theorem objGet_objSet_ne (o : List (String × JValue)) (k k' : String)
    (v : JValue) (h : k ≠ k') : objGet (objSet o k v) k' = objGet o k' := by
  induction o with
  | nil => simp [objSet, objGet, h]
  | cons hd tl ih =>
      obtain ⟨k₀, v₀⟩ := hd
      by_cases h0 : k₀ = k
      · subst h0; simp [objSet, objGet, h]
      · simp [objSet, objGet, h0, ih]

theorem objSet_same (o : List (String × JValue)) (k : String) (v : JValue)
    (h : objGet o k = some v) : objSet o k v = o := by
  induction o with
  | nil => simp [objGet] at h
  | cons hd tl ih =>
      obtain ⟨k₀, v₀⟩ := hd
      by_cases h0 : k₀ = k
      · subst h0
        simp [objGet] at h
        simp [objSet, h]
      · simp [objGet, h0] at h
        simp [objSet, h0, ih h]

theorem objGet_append (xs ys : List (String × JValue)) (k : String) :
    objGet (xs ++ ys) k =
      match objGet xs k with
      | some v => some v
      | none => objGet ys k := by
  induction xs with
  | nil => simp [objGet]
  | cons hd tl ih =>
      obtain ⟨k₀, v₀⟩ := hd
      by_cases h0 : k₀ = k <;> simp [objGet, h0, ih]

theorem objGet_override_map (a b : List (String × JValue)) (k : String) :
    objGet (a.map (fun kv => match objGet b kv.1 with
        | some v => (kv.1, v)
        | none => kv)) k =
      match objGet a k with
      | none => none
      | some v =>
          some (match objGet b k with
                | some w => w
                | none => v) := by
  induction a with
  | nil => simp [objGet]
  | cons hd tl ih =>
      obtain ⟨k₀, v₀⟩ := hd
      by_cases h0 : k₀ = k
      · subst h0
        cases hb : objGet b k₀ <;> simp [objGet, hb]
      · cases hb : objGet b k₀ <;> simp [objGet, h0, hb, ih]

theorem objGet_filter_keep (b : List (String × JValue))
    (p : String × JValue → Bool) (k : String)
    (h : ∀ v, p (k, v) = true) :
    objGet (b.filter p) k = objGet b k := by
  induction b with
  | nil => simp [objGet]
  | cons hd tl ih =>
      obtain ⟨k₀, v₀⟩ := hd
      by_cases h0 : k₀ = k
      · subst h0
        simp [List.filter, h v₀, objGet]
      · cases hp : p (k₀, v₀) <;> simp [List.filter, hp, objGet, h0, ih]

theorem any_key_eq_false (a : List (String × JValue)) (k : String)
    (h : objGet a k = none) :
    (a.any (fun kv' => kv'.1 = k)) = false := by
  induction a with
  | nil => simp
  | cons hd tl ih =>
      obtain ⟨k₀, v₀⟩ := hd
      by_cases h0 : k₀ = k
      · subst h0; simp [objGet] at h
      · simp [objGet, h0] at h
        simp [h0, ih h]

theorem objGet_objSpread2_right (a b : List (String × JValue)) (k : String)
    (v : JValue) (h : objGet b k = some v) :
    objGet (objSpread2 a b) k = some v := by
  unfold objSpread2
  rw [objGet_append, objGet_override_map]
  cases ha : objGet a k with
  | some w => simp [h]
  | none =>
      simp only []
      rw [objGet_filter_keep]
      · exact h
      · intro w
        simp [any_key_eq_false a k ha]

theorem objGet_objSpread2_left (a b : List (String × JValue)) (k : String)
    (h : objGet b k = none) :
    objGet (objSpread2 a b) k = objGet a k := by
  unfold objSpread2
  rw [objGet_append, objGet_override_map]
  cases ha : objGet a k with
  | some w => simp [h]
  | none =>
      simp only []
      rw [objGet_filter_keep]
      · exact h
      · intro w
        simp [any_key_eq_false a k ha]

/-! Markdown parser (`src/markdown-parser.ts`).

The external grammar stage (`remark-parse` + plugins) produces an mdast tree;
the repository's own code is the recursive `transform` over that tree and the
`markdownParse` wrapper. The mdast node is modelled with exactly the
properties `transform` reads: `type`, `depth`, `ordered`, `url`, `title`,
`value`, `children`. `getNodeProperty` (string property or `""`) is folded
into the `String`-typed fields; an absent `children` array and an empty one
are indistinguishable to `transform` (both give `[]`), so `children` is a
plain list. -/

/-- An mdast node, restricted to the properties the transform reads. -/
inductive MdNode where
  | mk (ty : String) (depth : Option Nat) (ordered : Option Bool)
       (url title value : String) (children : List MdNode)

/-- The Slate node produced by `transform`: a text leaf `{text}`, or an
element `{type, children}` carrying `data: {url}` exactly when it is a
link. -/
inductive SlateNode where
  | text (s : String) : SlateNode
  | node (ty : String) (url : Option String) (children : List SlateNode)

/-- Model of `ensureChildren`: paragraphs/list items always get at least one child. -/
def ensureChildren (children : List SlateNode) : List SlateNode :=
  if children.length > 0 then children else [.text ""]

/-- The three shapes `transform` can return: `null`, a single node, or an
array of nodes (for `root` and the flattening default arm). -/
inductive TransformResult where
  | nullR : TransformResult
  | one (n : SlateNode) : TransformResult
  | many (ns : List SlateNode) : TransformResult

/-- Flattening step `.map(transform).filter(Boolean).flat()` applied to one result:
`null` is dropped, a single node contributes itself, an array is spliced. -/
def TransformResult.toList : TransformResult → List SlateNode
  | .nullR => []
  | .one n => [n]
  | .many ns => ns

mutual

/-- Model of `transform` from `src/markdown-parser.ts`: maps one mdast node to the
Slate format, after recursively transforming its children. -/
def transform : MdNode → TransformResult
  | .mk ty depth ordered url title value children =>
      let cs := transformChildren children
      match ty with
      | "root" => .many cs
      | "heading" =>
          let d := match depth with | some d => d | none => 2
          .one (.node ("h" ++ toString d) none cs)
      | "paragraph" => .one (.node "p" none (ensureChildren cs))
      | "blockquote" => .one (.node "blockquote" none cs)
      | "list" =>
          let isOrdered := ordered = some true
          .one (.node (if isOrdered then "ol" else "ul") none cs)
      | "listItem" => .one (.node "li" none (ensureChildren cs))
      | "strong" => .one (.node "strong" none cs)
      | "emphasis" => .one (.node "em" none cs)
      | "delete" => .one (.node "del" none cs)
      | "superscript" => .one (.node "sup" none cs)
      | "subscript" => .one (.node "sub" none cs)
      | "link" =>
          .one (.node "link" (some url)
            (if cs.length > 0 then cs else [.text title]))
      | "text" => .one (.text value)
      | "thematicBreak" => .nullR
      | _ => .many cs

/-- The children pipeline `children.map(transform).filter(Boolean).flat()`. -/
def transformChildren : List MdNode → List SlateNode
  | [] => []
  | c :: rest => (transform c).toList ++ transformChildren rest

end

mutual

/-- A Slate node is a plain JSON object; this is the inclusion into `JValue`,
matching the object literals of `transform` field-for-field
(`{type, children}`, `{type, data: {url}, children}`, `{text}`). -/
def SlateNode.toJ : SlateNode → JValue
  | .text s => .obj [("text", .str s)]
  | .node ty none cs => .obj [("type", .str ty), ("children", .arr (slateListToJ cs))]
  | .node ty (some url) cs =>
      .obj [("type", .str ty), ("data", .obj [("url", .str url)]),
            ("children", .arr (slateListToJ cs))]

def slateListToJ : List SlateNode → List JValue
  | [] => []
  | n :: rest => n.toJ :: slateListToJ rest

end

/-- Model of `markdownParse` from `src/markdown-parser.ts`, parameterized by the
external grammar stage `remark` (remark-parse + gfm + supersub, out of scope
per the spec): non-strings are rejected before parsing, the empty string
short-circuits to `[]`, and the transform result is wrapped into an array
(`Array.isArray(result) ? result : result ? [result] : []`). -/
def markdownParse (remark : String → MdNode) (v : JValue) :
    Except String (List SlateNode) :=
  match v with
  | .str s =>
      if s = "" then .ok []
      else .ok (transform (remark s)).toList
  | _ => .error "Input must be a string"

/-! Block normalizer (`processBlock`, `src/index.ts` 1407–1465). -/

/-- Model of `processBlock`: per-type normalization of a block's raw data. The
returned value is the block record (always an object carrying `@type`).
Thrown errors are modelled as `Except.error`. -/
def processBlock (remark : String → MdNode) (blockType : String)
    (blockData : List (String × JValue)) : Except String JValue :=
  if blockType = "slate" ∨ blockType = "text" then
    -- Convert text block to Slate format
    let textContent := jsOr (objGet blockData "text") (.str "")
    match markdownParse remark textContent with
    | .error e => .error e
    | .ok nodes =>
        .ok (.obj [("@type", .str "slate"),
                   ("plaintext", textContent),
                   ("value", .arr (slateListToJ nodes)),
                   ("theme", jsOr (objGet blockData "theme") (.str "default"))])
  else if blockType = "image" then
    -- Basic validation for required fields
    match objGet blockData "url" with
    | some (.str u) =>
        if u.trim = "" then .error "Missing or invalid image URL"
        else .ok (.obj (objSpread2 blockData [("@type", .str "image")]))
    | _ => .error "Missing or invalid image URL"
  else if blockType = "teaser" ∨ blockType = "__button" then
    -- Transform href to required array format if it's a string
    let processedData := objSpread2 blockData [("@type", .str blockType)]
    if truthyOpt (objGet blockData "href") then
      match objGet blockData "href" with
      | some (.str s) =>
          .ok (.obj (objSet processedData "href" (.arr [.obj [("@id", .str s)]])))
      | some (.arr xs) => .ok (.obj (objSet processedData "href" (.arr xs)))
      | _ => .error "Invalid href format"
    else .ok (.obj processedData)
  else
    .ok (.obj (objSpread2 blockData [("@type", .str blockType)]))

/-! Staged layout state and expiry (`src/index.ts` 430–435, 1324–1329). -/

/-- The `preparedBlocks` slot: processed blocks, layout item list and the
creation timestamp (milliseconds). -/
structure PreparedBlocks where
  blocks : List (String × JValue)
  items : List String
  timestamp : Int

/-- Constant `PREPARED_BLOCKS_TTL = 60000` — 60 seconds. -/
def PREPARED_BLOCKS_TTL : Int := 60000

/-- Model of `isExpiredPreparedBlocks`: an empty slot counts as expired; otherwise the
entry is expired when strictly older than the TTL. -/
def isExpiredPreparedBlocks (now : Int) (pb : Option PreparedBlocks) : Bool :=
  match pb with
  | none => true
  | some p => now - p.timestamp > PREPARED_BLOCKS_TTL

/-! Block processing for create/update (`_handleBlockProcessing`,
`src/index.ts` 1340–1398). -/

/-- The non-null result of `_handleBlockProcessing`:
`{blocks, blocks_layout: {items}}`. -/
structure BlockResult where
  blocks : List (String × JValue)
  items : List String

/-- Check `finalBlocks[id]?.["@type"] === "title"`. -/
def isTitleBlock (v : Option JValue) : Bool :=
  match v with
  | some (.obj fields) =>
      match objGet fields "@type" with
      | some (.str s) => s = "title"
      | _ => false
  | _ => false

/-- The canonical minimal title block `{ "@type": "title" }`. -/
def titleCanonical : JValue := .obj [("@type", .str "title")]

/-- The title-block enforcement step of `_handleBlockProcessing`
(`src/index.ts` 1376–1397): find the first title block in layout order;
synthesize-and-prepend when absent (with a freshly generated id), move to
front when misplaced, and always reset its data to `{ "@type": "title" }`. -/
def enforceTitleBlock (freshId : String) (finalBlocks : List (String × JValue))
    (finalLayout : List String) : BlockResult :=
  match finalLayout.find? (fun id => isTitleBlock (objGet finalBlocks id)) with
  | none =>
      -- If no title block exists, create one and add it to the front
      { blocks := objSet finalBlocks freshId titleCanonical
        items := freshId :: finalLayout }
  | some titleBlockId =>
      if finalLayout.head? = some titleBlockId then
        { blocks := objSet finalBlocks titleBlockId titleCanonical
          items := finalLayout }
      else
        -- If it exists but isn't first, move it to the front
        { blocks := objSet finalBlocks titleBlockId titleCanonical
          items := titleBlockId :: finalLayout.filter (fun id => id ≠ titleBlockId) }

/-- Model of `_handleBlockProcessing`: picks staged blocks (when present and
unexpired) over supplied ones, clears the slot on every path that processes
blocks, returns `null` for an update with nothing to do, and finishes with
title-block enforcement. Returns (new slot state, result).
`blocks_layout` is `some none` when the argument was supplied without a
usable `items` array (the code then falls back to `Object.keys`). -/
def _handleBlockProcessing (pb : Option PreparedBlocks) (now : Int)
    (freshId : String) (blocks : Option (List (String × JValue)))
    (blocks_layout : Option (Option (List String))) (isUpdate : Bool) :
    Option PreparedBlocks × Option BlockResult :=
  let hasProvidedBlocks := blocks.isSome || blocks_layout.isSome
  let hasPreparedBlocks := pb.isSome && !(isExpiredPreparedBlocks now pb)
  if !hasProvidedBlocks && !hasPreparedBlocks && isUpdate then
    -- For updates, if no blocks are provided, do nothing
    -- (the slot is left as-is: the clear below is not reached).
    (pb, none)
  else
    let finalPair : List (String × JValue) × List String :=
      match pb, hasPreparedBlocks with
      | some p, true => (p.blocks, p.items)
      | _, _ =>
          let fb := blocks.getD []
          (fb, match blocks_layout with
               | some (some items) => items
               | _ => fb.map (·.1))
    -- Always clear prepared blocks after they are consumed
    (none, some (enforceTitleBlock freshId finalPair.1 finalPair.2))

/-! Staging (`handleCreateBlocksLayout`, `src/index.ts` 1076–1134).

The loop over the block specs: per-spec image-URL validation (the external
reachability checker is a boolean oracle `validate`), normalization via
`processBlock`, fresh id generation (`gen` indexed by the number of ids drawn
so far), and accumulation of `processedBlocks` / `blockIds` / `blockInfo`.
The schema (`PloneCreateBlocksLayoutSchema`) declares an optional `position`
per spec; the loop never reads it. -/

/-- One element of the `blocks` argument of `plone_create_blocks_layout`:
`{type, data, position?}` per `PloneCreateBlocksLayoutSchema`. -/
structure BlockSpec where
  type : String
  data : List (String × JValue)
  position : Option Int

/-- The per-spec pre-check `blockSpec.type === "image" && blockSpec.data?.url`
followed by `await this.validateImageURL(...)` failing. -/
def specImageCheckFails (validate : JValue → Bool) (spec : BlockSpec) : Bool :=
  spec.type = "image" && truthyOpt (objGet spec.data "url") &&
    !(validate ((objGet spec.data "url").getD .null))

/-- The body of the `for (const blockSpec of blocks)` loop, accumulating
(processedBlocks, blockIds, blockInfo); `i` counts the ids generated so
far. -/
def processSpecs (remark : String → MdNode) (validate : JValue → Bool)
    (gen : Nat → String) :
    Nat → List BlockSpec →
    Except String (List (String × JValue) × List String × List (String × String))
  | _, [] => .ok ([], [], [])
  | i, spec :: rest =>
      if specImageCheckFails validate spec then
        .error "Invalid or inaccessible image URL"
      else
        match processBlock remark spec.type spec.data with
        | .error e => .error e
        | .ok processed =>
            match processSpecs remark validate gen (i + 1) rest with
            | .error e => .error e
            | .ok (bs, ids, info) =>
                .ok ((gen i, processed) :: bs, gen i :: ids,
                     (gen i, spec.type) :: info)

/-- Model of `handleCreateBlocksLayout` (the `stage()` operation): on success the slot is replaced by
the freshly prepared blocks stamped `now`; on any error the slot is cleared
(the catch assigns null to the slot) and the error propagates. -/
def handleCreateBlocksLayout (remark : String → MdNode)
    (validate : JValue → Bool) (gen : Nat → String) (now : Int)
    (pb : Option PreparedBlocks) (specs : List BlockSpec) :
    Option PreparedBlocks × Except String (List (String × String)) :=
  match processSpecs remark validate gen 0 specs with
  | .ok (bs, ids, info) =>
      (some { blocks := bs, items := ids, timestamp := now }, .ok info)
  | .error e => (none, .error e)

/-! Single-block update (`handleUpdateBlock`, `src/index.ts` 1203–1242). -/

/-- The body `{...}` handed to `client.patch(path, ...)`: update sends only
`blocks`; add/remove also send `blocks_layout`. -/
structure PatchPayload where
  blocks : List (String × JValue)
  blocks_layout : Option (List String)

/-- The fetched document's fields that `handleUpdateBlock` touches
(`content.blocks` may be absent, then `{}` is used). -/
structure FetchedContent where
  blocks : Option (List (String × JValue))

/-- Own enumerable string-keyed fields of a value, as contributed by an
object spread; the handlers only ever spread objects (fetched block records),
and the non-object cases below are never reached under the theorems'
hypotheses (string/array index properties are out of scope). -/
def jsOwnFields : JValue → List (String × JValue)
  | .obj fields => fields
  | _ => []

/-- Model of `handleUpdateBlock`: looks the block up (with JS truthiness, matching
`if (!blocks[blockId])`), fails listing the valid ids when absent, otherwise
merges `{...blocks[blockId], ...blockData}` into that entry and patches with
`{ blocks }` only — no layout. -/
def handleUpdateBlock (content : FetchedContent) (blockId : String)
    (blockData : List (String × JValue)) : Except String PatchPayload :=
  let blocks := content.blocks.getD []
  if !(truthyOpt (objGet blocks blockId)) then
    .error ("Block with ID " ++ blockId ++ " not found. Available block IDs: " ++
      String.intercalate ", " (blocks.map (·.1)))
  else
    let merged : JValue :=
      .obj (objSpread2 (jsOwnFields ((objGet blocks blockId).getD .null)) blockData)
    .ok { blocks := objSet blocks blockId merged, blocks_layout := none }

/-! Helper predicates used by the claim statements. -/

/-- Number of blocks in a mapping carrying the `title` block-type. -/
def countTitleBlocks (blocks : List (String × JValue)) : Nat :=
  blocks.countP (fun kv => isTitleBlock (some kv.2))

/-- Boolean error test on `Except`. -/
def exceptIsError {ε α : Type} : Except ε α → Bool
  | .error _ => true
  | .ok _ => false

/-- A trivial grammar stage: every input parses to an empty document (used
to instantiate the `remark` parameter where the parse result is
irrelevant). -/
def remarkTrivial : String → MdNode := fun _ => .mk "root" none none "" "" "" []

/-- A deterministic id generator for concrete runs: `id0`, `id1`, …. -/
def genIdx : Nat → String := fun n => "id" ++ toString n

theorem isTitleBlock_titleCanonical : isTitleBlock (some titleCanonical) = true := rfl

/-- The staged-over-supplied selection performed by `_handleBlockProcessing`
(the `finalBlocks`/`finalLayout` assignment), as a standalone function. -/
def selectFinal (pb : Option PreparedBlocks) (now : Int)
    (blocks : Option (List (String × JValue)))
    (blocks_layout : Option (Option (List String))) :
    List (String × JValue) × List String :=
  match pb, pb.isSome && !(isExpiredPreparedBlocks now pb) with
  | some p, true => (p.blocks, p.items)
  | _, _ =>
      let fb := blocks.getD []
      (fb, match blocks_layout with
           | some (some items) => items
           | _ => fb.map (·.1))

theorem _handleBlockProcessing_eq (pb : Option PreparedBlocks) (now : Int)
    (fid : String) (blocks : Option (List (String × JValue)))
    (blocks_layout : Option (Option (List String))) (isUpdate : Bool) :
    _handleBlockProcessing pb now fid blocks blocks_layout isUpdate =
      if !(blocks.isSome || blocks_layout.isSome) &&
          !(pb.isSome && !(isExpiredPreparedBlocks now pb)) && isUpdate then
        (pb, none)
      else
        (none, some (enforceTitleBlock fid
          (selectFinal pb now blocks blocks_layout).1
          (selectFinal pb now blocks blocks_layout).2)) := rfl

theorem enforceTitleBlock_head (fid : String) (b : List (String × JValue))
    (l : List String) :
    ∃ tid rest, (enforceTitleBlock fid b l).items = tid :: rest ∧
      objGet (enforceTitleBlock fid b l).blocks tid = some titleCanonical := by
  unfold enforceTitleBlock
  cases hf : l.find? (fun id => isTitleBlock (objGet b id)) with
  | none =>
      exact ⟨fid, l, rfl, objGet_objSet_self _ _ _⟩
  | some tid =>
      by_cases hh : l.head? = some tid
      · cases l with
        | nil => simp at hh
        | cons x xs =>
            simp only [List.head?] at hh
            have hx : x = tid := by injection hh
            subst hx
            simp only [List.head?, if_pos rfl]
            exact ⟨x, xs, rfl, objGet_objSet_self _ _ _⟩
      · simp only [if_neg hh]
        exact ⟨tid, _, rfl, objGet_objSet_self _ _ _⟩

theorem enforceTitleBlock_titled_head (fid : String)
    (b : List (String × JValue)) (tid : String) (rest : List String)
    (hget : isTitleBlock (objGet b tid) = true) :
    enforceTitleBlock fid b (tid :: rest) =
      { blocks := objSet b tid titleCanonical, items := tid :: rest } := by
  unfold enforceTitleBlock
  simp [List.find?, hget]

/-- C8: the title-enforcement step is idempotent — running the step a second
time (with any fresh id for the second run) returns its input unchanged. -/
theorem title_enforcement_idempotent (fid₁ fid₂ : String)
    (b : List (String × JValue)) (l : List String) :
    enforceTitleBlock fid₂ (enforceTitleBlock fid₁ b l).blocks
        (enforceTitleBlock fid₁ b l).items = enforceTitleBlock fid₁ b l := by
  obtain ⟨tid, rest, hitems, hget⟩ := enforceTitleBlock_head fid₁ b l
  generalize hE : enforceTitleBlock fid₁ b l = er at hitems hget ⊢
  have ht : isTitleBlock (objGet er.blocks tid) = true := by
    rw [hget]; rfl
  calc enforceTitleBlock fid₂ er.blocks er.items
      = enforceTitleBlock fid₂ er.blocks (tid :: rest) := by rw [hitems]
    _ = ⟨objSet er.blocks tid titleCanonical, tid :: rest⟩ :=
        enforceTitleBlock_titled_head fid₂ er.blocks tid rest ht
    _ = ⟨er.blocks, tid :: rest⟩ := by rw [objSet_same _ _ _ hget]
    _ = er := by rw [← hitems]

/-- C1 (amended): whenever block processing produces a non-absent result,
the layout is non-empty, its first identifier denotes a block whose data is
exactly the minimal canonical title form `{ "@type": "title" }` (one is
synthesized and prepended when no title block was reachable from the layout;
a misplaced one is moved to the front; caller-supplied fields on it are
discarded). Blocks other than this first title block are not rewritten, so
additional title-typed blocks supplied by the caller remain (uniqueness does
not hold in general, see the counterexample). -/
theorem block_processing_title_first (pb : Option PreparedBlocks) (now : Int)
    (fid : String) (blocks : Option (List (String × JValue)))
    (blocks_layout : Option (Option (List String))) (isUpdate : Bool)
    (st : Option PreparedBlocks) (r : BlockResult)
    (h : _handleBlockProcessing pb now fid blocks blocks_layout isUpdate
          = (st, some r)) :
    ∃ tid rest, r.items = tid :: rest ∧
      objGet r.blocks tid = some titleCanonical := by
  rw [_handleBlockProcessing_eq] at h
  split at h
  · exact absurd (congrArg Prod.snd h) (by simp)
  · rw [Prod.mk.injEq] at h
    obtain ⟨-, h2⟩ := h
    have hr := Option.some_inj.mp h2
    subst hr
    exact enforceTitleBlock_head fid _ _

/-- C1 (counterexample): two caller-supplied title-typed blocks survive block
processing — the result is non-absent and carries two blocks of type
`title`, refuting "exactly one block in the mapping carries the title
block-type" (only the first one in layout order is canonicalized; the other
keeps its type and its caller-supplied fields). -/
theorem block_processing_two_titles_counterexample :
    (_handleBlockProcessing none 0 "f"
        (some [("a", titleCanonical),
               ("b", .obj [("@type", .str "title"), ("foo", .str "bar")])])
        (some (some ["a", "b"])) false).2
      = some { blocks := [("a", titleCanonical),
                          ("b", .obj [("@type", .str "title"), ("foo", .str "bar")])],
               items := ["a", "b"] }
    ∧ countTitleBlocks
        [("a", titleCanonical),
         ("b", .obj [("@type", .str "title"), ("foo", .str "bar")])] = 2 :=
  ⟨rfl, rfl⟩

/-- C2: precedence in block processing — a valid (non-expired) staged layout
is used and the slot cleared even when supplied data is also given; without
a valid staged layout the supplied data is used (layout falling back to the
block mapping keys when no usable items list was supplied); with neither, an
update returns the absent result (and does not touch the slot on that path)
while a create proceeds from the empty block set, to which the default title
block is added. -/
theorem resolve_for_write_precedence (pb : Option PreparedBlocks) (now : Int)
    (fid : String) (sb : Option (List (String × JValue)))
    (sl : Option (Option (List String))) (isUpdate : Bool) :
    (∀ p, pb = some p → isExpiredPreparedBlocks now pb = false →
        _handleBlockProcessing pb now fid sb sl isUpdate
          = (none, some (enforceTitleBlock fid p.blocks p.items)))
    ∧ (isExpiredPreparedBlocks now pb = true → (sb.isSome || sl.isSome) = true →
        _handleBlockProcessing pb now fid sb sl isUpdate
          = (none, some (enforceTitleBlock fid (sb.getD [])
              (match sl with
               | some (some items) => items
               | _ => (sb.getD []).map (·.1)))))
    ∧ (isExpiredPreparedBlocks now pb = true →
        (_handleBlockProcessing pb now fid none none true).2 = none
        ∧ _handleBlockProcessing pb now fid none none false
            = (none, some { blocks := [(fid, titleCanonical)], items := [fid] })) := by
  refine ⟨?_, ?_, ?_⟩
  · intro p hp hexp
    subst hp
    rw [_handleBlockProcessing_eq]
    simp [hexp, selectFinal]
  · intro hexp hsup
    rw [_handleBlockProcessing_eq]
    have hc : (!(sb.isSome || sl.isSome) &&
        !(pb.isSome && !(isExpiredPreparedBlocks now pb)) && isUpdate) = false := by
      simp [hsup]
    rw [hc]
    cases pb with
    | none => simp [selectFinal]
    | some p => simp [selectFinal, hexp]
  · intro hexp
    constructor
    · rw [_handleBlockProcessing_eq]
      simp [hexp]
    · rw [_handleBlockProcessing_eq]
      cases pb with
      | none => simp [selectFinal, enforceTitleBlock, List.find?, objSet]
      | some p => simp [hexp, selectFinal, enforceTitleBlock, List.find?, objSet]

/-- C2 (witness): a concrete non-expired staged layout is consumed — used in
preference to the supplied blocks — and the slot is cleared. -/
theorem resolve_for_write_precedence_witness :
    _handleBlockProcessing
        (some { blocks := [("s", .obj [("@type", .str "slate")])],
                items := ["s"], timestamp := 0 }) 5000 "f"
        (some [("a", titleCanonical)]) (some (some ["a"])) true
      = (none, some (enforceTitleBlock "f"
          [("s", .obj [("@type", .str "slate")])] ["s"])) :=
  (resolve_for_write_precedence
      (some { blocks := [("s", .obj [("@type", .str "slate")])],
              items := ["s"], timestamp := 0 }) 5000 "f"
      (some [("a", titleCanonical)]) (some (some ["a"])) true).1
    { blocks := [("s", .obj [("@type", .str "slate")])],
      items := ["s"], timestamp := 0 } rfl rfl

/-- C4: a staged layout older than the 60-second TTL (e.g. 61 seconds) acts
as if nothing had been staged — an update with no supplied blocks yields the
absent result exactly like the never-staged run, and a create produces the
same output (state and result) as the never-staged run. -/
theorem staging_ttl_expired (p : PreparedBlocks) (now : Int) (fid : String)
    (h : now - p.timestamp > PREPARED_BLOCKS_TTL) :
    ((_handleBlockProcessing (some p) now fid none none true).2 = none
      ∧ (_handleBlockProcessing none now fid none none true).2 = none)
    ∧ _handleBlockProcessing (some p) now fid none none false
        = _handleBlockProcessing none now fid none none false := by
  have hexp : isExpiredPreparedBlocks now (some p) = true := by
    simp [isExpiredPreparedBlocks, h]
  refine ⟨⟨?_, ?_⟩, ?_⟩
  · rw [_handleBlockProcessing_eq]
    simp [hexp]
  · rw [_handleBlockProcessing_eq]
    simp [isExpiredPreparedBlocks]
  · rw [_handleBlockProcessing_eq, _handleBlockProcessing_eq]
    simp [hexp, isExpiredPreparedBlocks, selectFinal, h]

/-- C4 (witness): staged at time 0, resolved at 61000 ms — behaves as never
staged for both update and create. -/
theorem staging_ttl_expired_witness :
    ((_handleBlockProcessing
        (some { blocks := [("s", .obj [])], items := ["s"], timestamp := 0 })
        61000 "f" none none true).2 = none
      ∧ (_handleBlockProcessing none 61000 "f" none none true).2 = none)
    ∧ _handleBlockProcessing
        (some { blocks := [("s", .obj [])], items := ["s"], timestamp := 0 })
        61000 "f" none none false
        = _handleBlockProcessing none 61000 "f" none none false :=
  staging_ttl_expired
    { blocks := [("s", .obj [])], items := ["s"], timestamp := 0 }
    61000 "f" (by norm_num [PREPARED_BLOCKS_TTL])

/-- Failure of the processing of one single spec: either the pre-loop image
URL check rejects it, or the normalizer (`processBlock`) throws on it. -/
def specStepFails (remark : String → MdNode) (validate : JValue → Bool)
    (spec : BlockSpec) : Bool :=
  specImageCheckFails validate spec ||
    exceptIsError (processBlock remark spec.type spec.data)

theorem processSpecs_error_of_fail (remark : String → MdNode)
    (validate : JValue → Bool) (gen : Nat → String) (specs : List BlockSpec)
    (h : ∃ spec ∈ specs, specStepFails remark validate spec = true) :
    ∀ i, exceptIsError (processSpecs remark validate gen i specs) = true := by
  induction specs with
  | nil => simp at h
  | cons spec rest ih =>
      intro i
      obtain ⟨s, hs, hfail⟩ := h
      unfold processSpecs
      by_cases himg : specImageCheckFails validate spec = true
      · simp [himg, exceptIsError]
      · rw [if_neg himg]
        cases hpb : processBlock remark spec.type spec.data with
        | error e => simp [exceptIsError]
        | ok processed =>
            have hrest : ∃ s ∈ rest, specStepFails remark validate s = true := by
              rcases List.mem_cons.mp hs with hh | ht
              · subst hh
                exfalso
                unfold specStepFails at hfail
                rw [hpb] at hfail
                simp [exceptIsError, himg] at hfail
              · exact ⟨s, ht, hfail⟩
            have := ih hrest (i + 1)
            cases hps : processSpecs remark validate gen (i + 1) rest with
            | error e => simp [hps, exceptIsError]
            | ok acc =>
                rw [hps] at this
                simp [exceptIsError] at this

/-- C3: if the normalizer or the image-URL check fails on any single spec of
the batch, the whole `stage()` call fails, and the slot ends empty — no
partial staging of the specs processed before the failure, and any
previously held staged layout is cleared. -/
theorem stage_failure_atomic (remark : String → MdNode)
    (validate : JValue → Bool) (gen : Nat → String) (now : Int)
    (pb : Option PreparedBlocks) (specs : List BlockSpec)
    (h : ∃ spec ∈ specs, specStepFails remark validate spec = true) :
    (handleCreateBlocksLayout remark validate gen now pb specs).1 = none
    ∧ exceptIsError
        (handleCreateBlocksLayout remark validate gen now pb specs).2 = true := by
  have herr := processSpecs_error_of_fail remark validate gen specs h 0
  unfold handleCreateBlocksLayout
  cases hps : processSpecs remark validate gen 0 specs with
  | error e => exact ⟨rfl, rfl⟩
  | ok acc =>
      rw [hps] at herr
      simp [exceptIsError] at herr

/-- C3 (witness): a batch holding a slate block followed by an image block
with no `url` aborts as a whole and clears a previously staged layout. -/
theorem stage_failure_atomic_witness :
    (handleCreateBlocksLayout remarkTrivial (fun _ => true) genIdx 0
        (some { blocks := [], items := ["x"], timestamp := 0 })
        [{ type := "slate", data := [("text", .str "a")], position := none },
         { type := "image", data := [], position := none }]).1 = none
    ∧ exceptIsError
        (handleCreateBlocksLayout remarkTrivial (fun _ => true) genIdx 0
          (some { blocks := [], items := ["x"], timestamp := 0 })
          [{ type := "slate", data := [("text", .str "a")], position := none },
           { type := "image", data := [], position := none }]).2 = true :=
  stage_failure_atomic remarkTrivial (fun _ => true) genIdx 0
    (some { blocks := [], items := ["x"], timestamp := 0 })
    [{ type := "slate", data := [("text", .str "a")], position := none },
     { type := "image", data := [], position := none }]
    ⟨{ type := "image", data := [], position := none }, by simp, rfl⟩

/-- C5: the staging loop ignores the declared `position` field. Staging a
slate block (text "a") followed by a slate block (text "b") with explicit
`position 0` yields the layout `["id0", "id1"]` — the block with position 0
is appended at the end in input order, not inserted first, contradicting the
schema's own description of `position`. -/
theorem stage_position_ignored :
    ((handleCreateBlocksLayout remarkTrivial (fun _ => true) genIdx 0 none
        [{ type := "slate", data := [("text", .str "a")], position := none },
         { type := "slate", data := [("text", .str "b")], position := some 0 }]).1.map
      PreparedBlocks.items) = some ["id0", "id1"] := rfl

mutual

/-- Amended non-leaf invariant: every `p` (paragraph) and `li` (list-item)
node has at least one child, recursively. -/
def paraLiOk : SlateNode → Bool
  | .text _ => true
  | .node ty _ cs =>
      (if ty = "p" ∨ ty = "li" then cs.length > 0 else true) && paraLiOkList cs

def paraLiOkList : List SlateNode → Bool
  | [] => true
  | n :: rest => paraLiOk n && paraLiOkList rest

end

mutual

/-- The claimed invariant: every non-leaf node has at least one child. -/
def nonLeafOk : SlateNode → Bool
  | .text _ => true
  | .node _ _ cs => (cs.length > 0) && nonLeafOkList cs

def nonLeafOkList : List SlateNode → Bool
  | [] => true
  | n :: rest => nonLeafOk n && nonLeafOkList rest

end

theorem paraLiOkList_append (a b : List SlateNode) :
    paraLiOkList (a ++ b) = (paraLiOkList a && paraLiOkList b) := by
  induction a with
  | nil => simp [paraLiOkList]
  | cons n rest ih => simp [paraLiOkList, ih, Bool.and_assoc]

theorem hstring_ne_p (d : Nat) : ("h" ++ toString d) ≠ "p" := by
  intro h
  have hd := congrArg String.data h
  simp [String.data_append] at hd

theorem hstring_ne_li (d : Nat) : ("h" ++ toString d) ≠ "li" := by
  intro h
  have hd := congrArg String.data h
  simp [String.data_append] at hd

theorem paraLi_all : ∀ md : MdNode, paraLiOkList (transform md).toList = true := by
  refine transform.induct
    (fun md => paraLiOkList (transform md).toList = true)
    (fun l => paraLiOkList (transformChildren l) = true)
    ?_ ?_ ?_ ?_ ?_ ?_ ?_ ?_ ?_ ?_ ?_ ?_ ?_ ?_ ?_ ?_ ?_
  · intro depth ordered url title value children ih
    simpa [transform, TransformResult.toList] using ih
  · intro depth ordered url title value children ih
    cases depth with
    | none =>
        simp [transform, TransformResult.toList, paraLiOkList, paraLiOk, ih,
          hstring_ne_p 2, hstring_ne_li 2]
    | some d =>
        simp [transform, TransformResult.toList, paraLiOkList, paraLiOk, ih,
          hstring_ne_p d, hstring_ne_li d]
  · intro depth ordered url title value children ih
    by_cases hc : (transformChildren children).length > 0
    · simp [transform, TransformResult.toList, paraLiOkList, paraLiOk,
        ensureChildren, hc, ih]
    · simp [transform, TransformResult.toList, paraLiOkList, paraLiOk,
        ensureChildren, hc]
  · intro depth ordered url title value children ih
    simp [transform, TransformResult.toList, paraLiOkList, paraLiOk, ih]
  · intro depth ordered url title value children ih
    by_cases hord : ordered = some true <;>
      simp [transform, TransformResult.toList, paraLiOkList, paraLiOk, ih, hord]
  · intro depth ordered url title value children ih
    by_cases hc : (transformChildren children).length > 0
    · simp [transform, TransformResult.toList, paraLiOkList, paraLiOk,
        ensureChildren, hc, ih]
    · simp [transform, TransformResult.toList, paraLiOkList, paraLiOk,
        ensureChildren, hc]
  · intro depth ordered url title value children ih
    simp [transform, TransformResult.toList, paraLiOkList, paraLiOk, ih]
  · intro depth ordered url title value children ih
    simp [transform, TransformResult.toList, paraLiOkList, paraLiOk, ih]
  · intro depth ordered url title value children ih
    simp [transform, TransformResult.toList, paraLiOkList, paraLiOk, ih]
  · intro depth ordered url title value children ih
    simp [transform, TransformResult.toList, paraLiOkList, paraLiOk, ih]
  · intro depth ordered url title value children ih
    simp [transform, TransformResult.toList, paraLiOkList, paraLiOk, ih]
  · intro depth ordered url title value children ih
    by_cases hc : (transformChildren children).length > 0
    · simp [transform, TransformResult.toList, paraLiOkList, paraLiOk, hc, ih]
    · simp [transform, TransformResult.toList, paraLiOkList, paraLiOk, hc]
  · intro depth ordered url title value children ih
    simp [transform, TransformResult.toList, paraLiOkList, paraLiOk]
  · intro depth ordered url title value children ih
    simp [transform, TransformResult.toList, paraLiOkList]
  · intro ty depth ordered url title value children h1 h2 h3 h4 h5 h6 h7 h8 h9 h10 h11 h12 h13 h14 ih
    simpa [transform, TransformResult.toList, h1, h2, h3, h4, h5, h6, h7,
      h8, h9, h10, h11, h12, h13, h14] using ih
  · simp [transformChildren, paraLiOkList]
  · intro c rest ih1 ih2
    simp [transformChildren, paraLiOkList_append, ih1, ih2]

theorem paraLi_all_list (l : List MdNode) :
    paraLiOkList (transformChildren l) = true := by
  induction l with
  | nil => simp [transformChildren, paraLiOkList]
  | cons c rest ih =>
      simp [transformChildren, paraLiOkList_append, paraLi_all c, ih]

/-- Modelled from the spec: the external grammar stage (remark-parse) for the
single input `"#"` — a CommonMark ATX heading marker with empty contents
parses to a depth-1 heading node with no children under the document root. -/
def remarkHash : String → MdNode :=
  fun _ => .mk "root" none none "" "" ""
    [.mk "heading" (some 1) none "" "" "" []]

/-- C6 (counterexample): parsing `"#"` produces a heading node `h1` with zero
children — a non-leaf node with an empty child sequence, refuting the claim
that every non-leaf node in the parse result has at least one child
(`ensureChildren` guards only paragraphs and list items). -/
theorem markdown_parse_nonleaf_counterexample :
    markdownParse remarkHash (.str "#") = .ok [.node "h1" none []]
    ∧ nonLeafOkList [.node "h1" none []] = false := ⟨rfl, rfl⟩

/-- C6 (amended): in every successful parse result, every paragraph (`p`)
and list-item (`li`) node has at least one child, recursively; in particular
a paragraph with no transformed children is represented as a single
empty-string text leaf. Other non-leaf kinds (e.g. headings) may legally
have zero children. -/
theorem markdown_parse_para_li_invariant :
    (∀ (remark : String → MdNode) (v : JValue) (nodes : List SlateNode),
        markdownParse remark v = .ok nodes → paraLiOkList nodes = true)
    ∧ (∀ (depth : Option Nat) (ordered : Option Bool)
        (url title value : String) (children : List MdNode),
        transformChildren children = [] →
        transform (.mk "paragraph" depth ordered url title value children)
          = .one (.node "p" none [.text ""])) := by
  constructor
  · intro remark v nodes h
    cases v with
    | str s =>
        unfold markdownParse at h
        by_cases hs : s = ""
        · simp [hs] at h
          subst h
          simp [paraLiOkList]
        · simp [hs] at h
          rw [← h]
          exact paraLi_all (remark s)
    | null => simp [markdownParse] at h
    | bool b => simp [markdownParse] at h
    | num n => simp [markdownParse] at h
    | arr xs => simp [markdownParse] at h
    | obj fields => simp [markdownParse] at h
  · intro depth ordered url title value children h
    simp [transform, h, ensureChildren]

/-- C6 (witness): the invariant instantiated at the grammar output for `"#"`
and at an empty paragraph. -/
theorem markdown_parse_para_li_invariant_witness :
    paraLiOkList [.node "h1" none []] = true
    ∧ transform (.mk "paragraph" none none "" "" "" [])
        = .one (.node "p" none [.text ""]) :=
  ⟨markdown_parse_para_li_invariant.1 remarkHash (.str "#")
      [.node "h1" none []] rfl,
   markdown_parse_para_li_invariant.2 none none "" "" "" [] rfl⟩

/-- C7 (counterexample): a `text` field that is present but not a string —
the falsy number 0 — does not fail: `blockData.text || ""` coerces it to the
empty string and a slate block is produced silently. -/
theorem slate_falsy_text_counterexample :
    processBlock remarkTrivial "text" [("text", .num 0)]
      = .ok (.obj [("@type", .str "slate"), ("plaintext", .str ""),
                   ("value", .arr []), ("theme", .str "default")]) := rfl

/-- C7 (amended): normalizing a slate/text block whose `text` field is
present, truthy and not a string fails; a present but falsy non-string
`text` (0, false, null) is coerced to the empty string instead, producing a
block silently. -/
theorem slate_nonstring_text_error (remark : String → MdNode) (bt : String)
    (d : List (String × JValue)) (v : JValue)
    (hbt : bt = "slate" ∨ bt = "text")
    (hv : objGet d "text" = some v) (htr : truthy v = true)
    (hns : ∀ s, v ≠ .str s) :
    exceptIsError (processBlock remark bt d) = true := by
  unfold processBlock
  rw [if_pos hbt]
  have htc : jsOr (objGet d "text") (.str "") = v := by
    rw [hv]; simp [jsOr, htr]
  simp only [htc]
  cases v with
  | str s => exact absurd rfl (hns s)
  | null => simp [markdownParse, exceptIsError]
  | bool b => simp [markdownParse, exceptIsError]
  | num n => simp [markdownParse, exceptIsError]
  | arr xs => simp [markdownParse, exceptIsError]
  | obj fs => simp [markdownParse, exceptIsError]

/-- C7 (witness): a truthy non-string `text` (an array) makes normalization
fail. -/
theorem slate_nonstring_text_error_witness :
    exceptIsError (processBlock remarkTrivial "slate" [("text", .arr [])]) = true :=
  slate_nonstring_text_error remarkTrivial "slate" [("text", .arr [])] (.arr [])
    (Or.inl rfl) rfl rfl (fun _ h => JValue.noConfusion h)

/-- C9: whenever normalizing a block of type `text` or `slate` returns a
record, that record carries exactly the four fields `@type`, `plaintext`,
`value`, `theme` (in that order) and its discriminator is canonicalized to
`"slate"` — every other caller-supplied field of the raw data is
discarded. -/
theorem slate_normal_exact_fields (remark : String → MdNode) (bt : String)
    (d : List (String × JValue)) (fields : List (String × JValue))
    (hbt : bt = "slate" ∨ bt = "text")
    (h : processBlock remark bt d = .ok (.obj fields)) :
    fields.map Prod.fst = ["@type", "plaintext", "value", "theme"]
    ∧ objGet fields "@type" = some (.str "slate") := by
  unfold processBlock at h
  rw [if_pos hbt] at h
  cases hm : markdownParse remark (jsOr (objGet d "text") (.str "")) with
  | error e =>
      simp only [hm] at h
      exact absurd h (by simp)
  | ok nodes =>
      simp only [hm] at h
      injection h with h1
      injection h1 with h2
      subst h2
      exact ⟨rfl, by simp [objGet]⟩

/-- C9 (witness): a concrete raw data mapping with an extra `junk` field —
the result has exactly the four canonical fields and discriminator
`"slate"`. -/
theorem slate_normal_exact_fields_witness :
    ([("@type", JValue.str "slate"), ("plaintext", JValue.str "hi"),
      ("value", JValue.arr []), ("theme", JValue.str "default")].map Prod.fst
        = ["@type", "plaintext", "value", "theme"])
    ∧ objGet [("@type", JValue.str "slate"), ("plaintext", JValue.str "hi"),
        ("value", JValue.arr []), ("theme", JValue.str "default")] "@type"
        = some (.str "slate") :=
  slate_normal_exact_fields remarkTrivial "text"
    [("text", .str "hi"), ("junk", .num 5)]
    [("@type", JValue.str "slate"), ("plaintext", JValue.str "hi"),
     ("value", JValue.arr []), ("theme", JValue.str "default")]
    (Or.inr rfl) rfl

/-- C10: for a fetched document and a block id present in its block mapping,
`handleUpdateBlock` patches with the blocks mapping only (no layout is
sent); the addressed entry becomes the field-wise spread merge of the old
block with the supplied data (supplied fields win, all other fields —
including `@type` — keep their prior values), and every other entry of the
mapping is unchanged. -/
theorem update_block_payload (content : FetchedContent) (blockId : String)
    (blockData old : List (String × JValue))
    (hold : objGet (content.blocks.getD []) blockId = some (.obj old)) :
    handleUpdateBlock content blockId blockData
      = .ok { blocks := objSet (content.blocks.getD []) blockId
                (.obj (objSpread2 old blockData)),
              blocks_layout := none }
    ∧ (∀ f v, objGet blockData f = some v →
        objGet (objSpread2 old blockData) f = some v)
    ∧ (∀ f, objGet blockData f = none →
        objGet (objSpread2 old blockData) f = objGet old f)
    ∧ (∀ id, id ≠ blockId →
        objGet (objSet (content.blocks.getD []) blockId
            (.obj (objSpread2 old blockData))) id
          = objGet (content.blocks.getD []) id) := by
  refine ⟨?_, ?_, ?_, ?_⟩
  · unfold handleUpdateBlock
    simp [hold, truthyOpt, truthy, jsOwnFields]
  · intro f v hf
    exact objGet_objSpread2_right old blockData f v hf
  · intro f hf
    exact objGet_objSpread2_left old blockData f hf
  · intro id hid
    exact objGet_objSet_ne _ blockId id _ (Ne.symm hid)

/-- C10 (witness): updating block `a` of a two-block document sends a
layout-free payload whose only changed entry is the merged `a`. -/
theorem update_block_payload_witness :
    handleUpdateBlock
        ⟨some [("a", .obj [("@type", .str "slate"), ("k", .num 1)]),
               ("b", .obj [])]⟩ "a" [("k", .num 2), ("new", .str "x")]
      = .ok { blocks := objSet
                [("a", .obj [("@type", .str "slate"), ("k", .num 1)]),
                 ("b", .obj [])] "a"
                (.obj (objSpread2 [("@type", .str "slate"), ("k", .num 1)]
                  [("k", .num 2), ("new", .str "x")])),
              blocks_layout := none } :=
  (update_block_payload
      ⟨some [("a", .obj [("@type", .str "slate"), ("k", .num 1)]),
             ("b", .obj [])]⟩ "a" [("k", .num 2), ("new", .str "x")]
      [("@type", .str "slate"), ("k", .num 1)] rfl).1

/-- C1 (witness): the create-with-nothing run synthesizes the canonical
title block first in the layout. -/
theorem block_processing_title_first_witness :
    ∃ tid rest,
      ({ blocks := [("f", titleCanonical)], items := ["f"] } : BlockResult).items
        = tid :: rest
      ∧ objGet ({ blocks := [("f", titleCanonical)], items := ["f"] }
          : BlockResult).blocks tid = some titleCanonical :=
  block_processing_title_first none 0 "f" none none false none
    { blocks := [("f", titleCanonical)], items := ["f"] } rfl
